import Mathlib

/-!
Shallow embedding of the MOW ledger engine (`src/inventory_app.py`).

The SQLite tables of `DatabaseManager` become lists of typed records inside a
`Store` structure; `AUTOINCREMENT` row ids become explicit `next_*_id`
counters (SQLite assigns `max ever used + 1`, monotonically, which the
counters mirror).  REAL columns become `ℚ`, INTEGER columns become `Int`
(ids, always nonnegative, become `Nat`).  Dates are stored by the program as
ISO `YYYY-MM-DD` strings and compared by SQLite as strings; for zero-padded
ISO dates that string order coincides with lexicographic order on
(year, month, day), which is how `Date` is compared here.  `dt.date.today()`
is passed in explicitly as a `today : Date` argument.  Operations that raise
`ValueError` before writing anything are modelled as `Except`-returning
functions; the caller's store is unchanged on `error` (helpers
`restockState` / `recordSaleState` make that explicit).
-/

namespace MOW

structure Date where
  year : Nat
  month : Nat
  day : Nat
deriving DecidableEq

/-- ISO-string comparison `a <= b`, i.e. lexicographic on (year, month, day). -/
def Date.leb (a b : Date) : Bool :=
  if a.year ≠ b.year then decide (a.year < b.year)
  else if a.month ≠ b.month then decide (a.month < b.month)
  else decide (a.day ≤ b.day)

/-- ISO-string comparison `a < b`. -/
def Date.ltb (a b : Date) : Bool :=
  if a.year ≠ b.year then decide (a.year < b.year)
  else if a.month ≠ b.month then decide (a.month < b.month)
  else decide (a.day < b.day)

/-- Row of the `products` table. -/
structure Product where
  id : Nat
  product_code : String
  name : String
  cost : ℚ
  price : ℚ
  stock : Int
  reorder_level : Int
deriving DecidableEq

/-- Row of the `inventory_movements` table. -/
structure InventoryMovement where
  id : Nat
  product_id : Nat
  movement_type : String
  quantity : Int
  unit_cost : ℚ
  movement_date : Date
deriving DecidableEq

/-- Row of the `sales` table. -/
structure Sale where
  id : Nat
  product_id : Nat
  quantity : Int
  sale_price : ℚ
  sale_date : Date
deriving DecidableEq

/-- Row of the `cash_movements` table. -/
structure CashMovement where
  id : Nat
  description : String
  amount : ℚ
  movement_type : String
  movement_date : Date
deriving DecidableEq

/-- The singleton `tax_settings` row (its fixed `id = 1` is omitted). -/
structure TaxSettings where
  vat_rate : ℚ
  income_tax_rate : ℚ
deriving DecidableEq

/-- The whole SQLite database of `DatabaseManager`. -/
structure Store where
  products : List Product
  inventory_movements : List InventoryMovement
  sales : List Sale
  cash_movements : List CashMovement
  tax_settings : TaxSettings
  next_product_id : Nat
  next_movement_id : Nat
  next_sale_id : Nat
  next_cash_id : Nat
deriving DecidableEq

/-- `_initialize`: empty tables, tax settings seeded with (0.10, 0.10),
SQLite rowids start at 1. -/
def freshStore : Store :=
  { products := []
    inventory_movements := []
    sales := []
    cash_movements := []
    tax_settings := ⟨1/10, 1/10⟩
    next_product_id := 1
    next_movement_id := 1
    next_sale_id := 1
    next_cash_id := 1 }

/-- `get_product`: `SELECT * FROM products WHERE product_code = ?` + `fetchone`
(first row in rowid order). -/
def get_product (s : Store) (code : String) : Option Product :=
  s.products.find? (fun p => p.product_code = code)

/-- `_log_inventory_movement`. -/
def logInventoryMovement (s : Store) (pid : Nat) (mtype : String) (qty : Int)
    (ucost : ℚ) (today : Date) : Store :=
  { s with
    inventory_movements :=
      s.inventory_movements ++ [⟨s.next_movement_id, pid, mtype, qty, ucost, today⟩]
    next_movement_id := s.next_movement_id + 1 }

/-- `_log_cash`: movement type is `"IN"` iff `amount >= 0`. -/
def logCash (s : Store) (descr : String) (amount : ℚ) (today : Date) : Store :=
  { s with
    cash_movements :=
      s.cash_movements ++
        [⟨s.next_cash_id, descr, amount, if 0 ≤ amount then "IN" else "OUT", today⟩]
    next_cash_id := s.next_cash_id + 1 }

/-- `add_product` (the spec's `upsertProduct`): `INSERT OR REPLACE` deletes any
row with the same (unique) product code and inserts a fresh row under a new
rowid; `if stock:` (Python truthiness, i.e. `stock ≠ 0`) then one IN movement
for `lastrowid` is logged. -/
def add_product (s : Store) (today : Date) (code nm : String) (cost price : ℚ)
    (stock reorder : Int) : Store :=
  let s1 : Store :=
    { s with
      products := s.products.filter (fun p => p.product_code ≠ code) ++
        [⟨s.next_product_id, code, nm, cost, price, stock, reorder⟩]
      next_product_id := s.next_product_id + 1 }
  if stock ≠ 0 then logInventoryMovement s1 s.next_product_id "IN" stock cost today
  else s1

/-- The two `ValueError`s the engine raises: "해당 상품을 찾을 수 없습니다"
(`notFound`) and "재고가 부족합니다" (`insufficientStock`). -/
inductive LedgerError where
  | notFound
  | insufficientStock
deriving DecidableEq

/-- `restock`: look up by code, fail if absent; otherwise
`UPDATE products SET stock = stock + ? WHERE product_code = ?`, log one IN
movement at the product's current cost, and log cash `-(cost * quantity)`.
No validation of `quantity` is performed. -/
def restock (s : Store) (today : Date) (code : String) (qty : Int) :
    Except LedgerError Store :=
  match get_product s code with
  | none => .error .notFound
  | some p =>
    let s1 : Store :=
      { s with
        products := s.products.map (fun q =>
          if q.product_code = code then { q with stock := q.stock + qty } else q) }
    let s2 := logInventoryMovement s1 p.id "IN" qty p.cost today
    .ok (logCash s2 (p.name ++ " 매입") (-(p.cost * (qty : ℚ))) today)

/-- The dict `record_sale` returns. -/
structure SaleResult where
  product : Product
  quantity : Int
  sale_price : ℚ
  revenue : ℚ
  cogs : ℚ
deriving DecidableEq

/-- `record_sale`: fail if the code is unknown or `stock < quantity`
(both checks happen before anything is written); otherwise
`UPDATE ... SET stock = stock - ? WHERE id = ?`, insert the sale, log one OUT
movement and cash `+price*quantity`, and return the realized figures.
No validation of `quantity` is performed. -/
def record_sale (s : Store) (today : Date) (code : String) (qty : Int) :
    Except LedgerError (Store × SaleResult) :=
  match get_product s code with
  | none => .error .notFound
  | some p =>
    if p.stock < qty then .error .insufficientStock
    else
      let s1 : Store :=
        { s with
          products := s.products.map (fun q =>
            if q.id = p.id then { q with stock := q.stock - qty } else q) }
      let s2 : Store :=
        { s1 with
          sales := s1.sales ++ [⟨s1.next_sale_id, p.id, qty, p.price, today⟩]
          next_sale_id := s1.next_sale_id + 1 }
      let s3 := logInventoryMovement s2 p.id "OUT" qty p.cost today
      let s4 := logCash s3 (p.name ++ " 판매 수익") (p.price * (qty : ℚ)) today
      .ok (s4, ⟨p, qty, p.price, p.price * (qty : ℚ), p.cost * (qty : ℚ)⟩)

/-- The store the caller is left with after a `restock` call: the new store on
success, the untouched old store when the `ValueError` is raised (the raise
happens before any write). -/
def restockState (s : Store) (today : Date) (code : String) (qty : Int) : Store :=
  match restock s today code qty with
  | .ok s' => s'
  | .error _ => s

/-- The store the caller is left with after a `record_sale` call. -/
def recordSaleState (s : Store) (today : Date) (code : String) (qty : Int) : Store :=
  match record_sale s today code qty with
  | .ok (s', _) => s'
  | .error _ => s

/-- `update_tax_rates`: in-place update of the singleton row. -/
def update_tax_rates (s : Store) (vat income : ℚ) : Store :=
  { s with tax_settings := ⟨vat, income⟩ }

/-- `get_tax_rates`. -/
def get_tax_rates (s : Store) : TaxSettings :=
  s.tax_settings

/-- `fetch_products`: `SELECT * FROM products ORDER BY name` (a stable sort by
name; ties keep rowid order). -/
def fetch_products (s : Store) : List Product :=
  s.products.insertionSort (fun a b => a.name ≤ b.name)

/-- A row handed to `bulk_upsert_products` (the six columns it reads from each
imported record; any other keys of the dict row are ignored by the code). -/
structure ProductRow where
  product_code : String
  name : String
  cost : ℚ
  price : ℚ
  stock : Int
  reorder_level : Int
deriving DecidableEq

/-- One `INSERT ... ON CONFLICT(product_code) DO UPDATE` step: the conflicting
row (unique, by the UNIQUE constraint) is updated in place keeping its id,
otherwise a fresh row is inserted. -/
def bulkUpsertOne (s : Store) (r : ProductRow) : Store :=
  if s.products.any (fun p => p.product_code = r.product_code) then
    { s with
      products := s.products.map (fun p =>
        if p.product_code = r.product_code then
          { p with name := r.name, cost := r.cost, price := r.price,
                   stock := r.stock, reorder_level := r.reorder_level }
        else p) }
  else
    { s with
      products := s.products ++
        [⟨s.next_product_id, r.product_code, r.name, r.cost, r.price, r.stock,
          r.reorder_level⟩]
      next_product_id := s.next_product_id + 1 }

/-- `bulk_upsert_products` (the spec's `bulkUpsertProducts`): early-returns on
an empty row list, otherwise upserts row by row; no movement is logged. -/
def bulk_upsert_products (s : Store) (rows : List ProductRow) : Store :=
  if rows.isEmpty then s else rows.foldl bulkUpsertOne s

/-- The code → id dict `{p["product_code"]: p["id"] for p in fetch_products()}`:
on duplicate keys the later entry would win, hence `getLast?`. -/
def productIdByCode (s : Store) (code : String) : Option Nat :=
  (((fetch_products s).filter (fun p => p.product_code = code)).getLast?).map
    (fun p => p.id)

/-- A row handed to `replace_sales` (the four keys it reads; a missing or
falsy `sale_date` falls back to today). -/
structure SaleRow where
  product_code : String
  quantity : Int
  sale_price : ℚ
  sale_date : Option Date
deriving DecidableEq

/-- The insertion loop of `replace_sales`: rows whose code is absent from the
dict — or whose id is falsy (`if not product_id`), dead code since rowids
start at 1 — are skipped; inserted rows get consecutive fresh ids. -/
def insertSaleRows (today : Date) (lookup : String → Option Nat) :
    List SaleRow → Nat → List Sale
  | [], _ => []
  | r :: rs, nid =>
    match lookup r.product_code with
    | none => insertSaleRows today lookup rs nid
    | some pid =>
      if pid = 0 then insertSaleRows today lookup rs nid
      else ⟨nid, pid, r.quantity, r.sale_price, r.sale_date.getD today⟩ ::
        insertSaleRows today lookup rs (nid + 1)

/-- `replace_sales` (the spec's `replaceSales`): `DELETE FROM sales`, then
re-insert the given rows, resolving product references by code and silently
skipping unknown codes. -/
def replace_sales (s : Store) (today : Date) (rows : List SaleRow) : Store :=
  let inserted := insertSaleRows today (productIdByCode s) rows s.next_sale_id
  { s with sales := inserted, next_sale_id := s.next_sale_id + inserted.length }

/-- `apply_tax_frame`: reads the two rates off the first imported record and
applies `update_tax_rates`. -/
def apply_tax_frame (s : Store) (t : TaxSettings) : Store :=
  update_tax_rates s t.vat_rate t.income_tax_rate

/-! ## Financial reporting -/

/-- `SELECT * FROM products WHERE id = ?`, the join target of the sales
queries. -/
def productById (s : Store) (pid : Nat) : Option Product :=
  s.products.find? (fun p => p.id = pid)

/-- The join `sales s JOIN products p ON p.id = s.product_id`: sales whose
product reference resolves to no product row drop out of the join. -/
def salesJoined (s : Store) : List (Sale × Product) :=
  s.sales.filterMap (fun sl => (productById s sl.product_id).map (fun p => (sl, p)))

/-- The half-open SQL date filter `date >= start AND date < stop`. -/
def inWindow (start stop : Date) (d : Date) : Bool :=
  Date.leb start d && Date.ltb d stop

/-- The month window of `get_monthly_summary`: `dt.date(year, month, 1)` up to
the first day of the next month, December wrapping to January of `year + 1`. -/
def monthWindow (year month : Nat) : Date × Date :=
  (⟨year, month, 1⟩, if month = 12 then ⟨year + 1, 1, 1⟩ else ⟨year, month + 1, 1⟩)

/-- `SUM(...)` over a list of REAL values; the empty sum is the `or 0.0`
fallback applied to SQL's NULL. -/
def sumQ (l : List ℚ) : ℚ :=
  l.foldr (· + ·) 0

/-- The joined sales restricted to the summary window. -/
def windowSales (s : Store) (start stop : Date) : List (Sale × Product) :=
  (salesJoined s).filter (fun x => inWindow start stop x.1.sale_date)

/-- `SUM(quantity * sale_price)` over joined sales in the window. -/
def summaryRevenue (s : Store) (start stop : Date) : ℚ :=
  sumQ ((windowSales s start stop).map (fun x => (x.1.quantity : ℚ) * x.1.sale_price))

/-- `SUM(quantity * p.cost)` over joined sales in the window. -/
def summaryCogs (s : Store) (start stop : Date) : ℚ :=
  sumQ ((windowSales s start stop).map (fun x => (x.1.quantity : ℚ) * x.2.cost))

/-- `SUM(quantity * unit_cost)` over IN movements in the window. -/
def summaryPurchases (s : Store) (start stop : Date) : ℚ :=
  sumQ ((s.inventory_movements.filter (fun m =>
    m.movement_type = "IN" ∧ inWindow start stop m.movement_date = true)).map
      (fun m => (m.quantity : ℚ) * m.unit_cost))

/-- `SUM(amount)` over cash movements in the window. -/
def summaryCashFlow (s : Store) (start stop : Date) : ℚ :=
  sumQ ((s.cash_movements.filter (fun m => inWindow start stop m.movement_date)).map
    (fun m => m.amount))

/-- `get_inventory_value`: `SUM(stock * cost)` over all products. -/
def get_inventory_value (s : Store) : ℚ :=
  sumQ (s.products.map (fun p => (p.stock : ℚ) * p.cost))

/-- `get_cash_balance`: `SUM(amount)` over all cash movements. -/
def get_cash_balance (s : Store) : ℚ :=
  sumQ (s.cash_movements.map (fun m => m.amount))

/-- The dict `get_monthly_summary` returns. -/
structure MonthlySummary where
  revenue : ℚ
  cogs : ℚ
  gross_profit : ℚ
  vat : ℚ
  income_tax : ℚ
  net_income : ℚ
  purchases : ℚ
  cash_flow : ℚ
  inventory_value : ℚ
  cash_balance : ℚ
  assets : ℚ
  liabilities : ℚ
  equity : ℚ
deriving DecidableEq

/-- `get_monthly_summary`. -/
def get_monthly_summary (s : Store) (year month : Nat) : MonthlySummary :=
  let w := monthWindow year month
  let revenue := summaryRevenue s w.1 w.2
  let cogs := summaryCogs s w.1 w.2
  let purchases := summaryPurchases s w.1 w.2
  let cash_flow := summaryCashFlow s w.1 w.2
  let rates := get_tax_rates s
  let gross_profit := revenue - cogs
  let vat := revenue * rates.vat_rate
  let income_tax := max gross_profit 0 * rates.income_tax_rate
  let net_income := gross_profit - income_tax
  let inventory_value := get_inventory_value s
  let cash_balance := get_cash_balance s
  { revenue := revenue
    cogs := cogs
    gross_profit := gross_profit
    vat := vat
    income_tax := income_tax
    net_income := net_income
    purchases := purchases
    cash_flow := cash_flow
    inventory_value := inventory_value
    cash_balance := cash_balance
    assets := cash_balance + inventory_value
    liabilities := vat + income_tax
    equity := cash_balance + inventory_value - (vat + income_tax) }

/-! ## Sync reconciler -/

/-- A row of the exported `sales` sheet
(`SELECT s.id, p.product_code, p.name, s.quantity, s.sale_price, s.sale_date`). -/
structure SaleViewRow where
  id : Nat
  product_code : String
  name : String
  quantity : Int
  sale_price : ℚ
  sale_date : Date
deriving DecidableEq

/-- `fetch_all_sales`: the join, `ORDER BY sale_date ASC, id ASC` (sale ids are
unique, so the sort key is total). -/
def fetch_all_sales (s : Store) : List SaleViewRow :=
  ((salesJoined s).map (fun x =>
      ⟨x.1.id, x.2.product_code, x.2.name, x.1.quantity, x.1.sale_price,
        x.1.sale_date⟩)).insertionSort
    (fun a b => Date.ltb a.sale_date b.sale_date ∨
      (a.sale_date = b.sale_date ∧ a.id ≤ b.id))

/-- The six columns `bulk_upsert_products` reads from an imported products
record; the exported sheet's extra `id` column is ignored by the import. -/
def toProductRow (p : Product) : ProductRow :=
  ⟨p.product_code, p.name, p.cost, p.price, p.stock, p.reorder_level⟩

/-- The four columns `replace_sales` reads from an imported sales record; the
exported sheet's `id` and `name` columns are ignored by the import. -/
def toSaleRow (r : SaleViewRow) : SaleRow :=
  ⟨r.product_code, r.quantity, r.sale_price, some r.sale_date⟩

/-- `SyncManager._apply_frames`: products (merge by code), then sales
(destructive replace), then tax settings, each step skipped when its frame is
absent.  All exported values are non-null, so the `fillna(0)` on import is the
identity and is not modelled.  The trailing `export_documents()` re-export
does not mutate the store. -/
def applyFrames (s : Store) (today : Date) (prods : Option (List ProductRow))
    (sls : Option (List SaleRow)) (tax : Option TaxSettings) : Store :=
  let s1 := match prods with
    | some rs => bulk_upsert_products s rs
    | none => s
  let s2 := match sls with
    | some rs => replace_sales s1 today rs
    | none => s1
  match tax with
  | some t => apply_tax_frame s2 t
  | none => s2

/-- A record set as it appears in the delimited (TSV) document: a table with
no rows writes no lines at all, so on import that table is simply absent from
the frame mapping. -/
def optFrame {α : Type} (l : List α) : Option (List α) :=
  if l.isEmpty then none else some l

/-- `export_documents()` immediately followed by `import_from_excel` of the
just-written workbook: every sheet exists (even when empty), so all three
apply steps run on exactly the exported record sets. -/
def importTabularRoundtrip (s : Store) (today : Date) : Store :=
  applyFrames s today (some ((fetch_products s).map toProductRow))
    (some ((fetch_all_sales s).map toSaleRow)) (some s.tax_settings)

/-- `export_documents()` immediately followed by `import_from_tsv` of the
just-written file: record sets with no rows are absent from the document, so
their apply step is skipped; the `tax_settings` set always has its one row. -/
def importDelimitedRoundtrip (s : Store) (today : Date) : Store :=
  applyFrames s today (optFrame ((fetch_products s).map toProductRow))
    (optFrame ((fetch_all_sales s).map toSaleRow)) (some s.tax_settings)

/-! ## Reachability -/

/-- States reachable from the fresh store by the public mutation operations;
a failed (`ValueError`-raising) call leaves the state where it was, so only
successful `restock` / `record_sale` calls produce new states. -/
inductive Reachable : Store → Prop where
  | init : Reachable freshStore
  | upsertProduct {s today code nm cost price stock reorder} :
      Reachable s → Reachable (add_product s today code nm cost price stock reorder)
  | restockStep {s today code qty s'} :
      Reachable s → restock s today code qty = .ok s' → Reachable s'
  | recordSaleStep {s today code qty s' r} :
      Reachable s → record_sale s today code qty = .ok (s', r) → Reachable s'
  | updateTaxRatesStep {s vat income} :
      Reachable s → Reachable (update_tax_rates s vat income)
  | bulkUpsertStep {s rows} :
      Reachable s → Reachable (bulk_upsert_products s rows)
  | replaceSalesStep {s today rows} :
      Reachable s → Reachable (replace_sales s today rows)

/-- Reachability restricted to calls whose stock arguments are nonnegative and
whose restock quantities are nonnegative (the spec's declared preconditions). -/
inductive ReachableNN : Store → Prop where
  | init : ReachableNN freshStore
  | upsertProduct {s today code nm cost price stock reorder} :
      ReachableNN s → 0 ≤ stock →
      ReachableNN (add_product s today code nm cost price stock reorder)
  | restockStep {s today code qty s'} :
      ReachableNN s → 0 ≤ qty → restock s today code qty = .ok s' → ReachableNN s'
  | recordSaleStep {s today code qty s' r} :
      ReachableNN s → record_sale s today code qty = .ok (s', r) → ReachableNN s'
  | updateTaxRatesStep {s vat income} :
      ReachableNN s → ReachableNN (update_tax_rates s vat income)
  | bulkUpsertStep {s rows} :
      ReachableNN s → (∀ r ∈ rows, 0 ≤ r.stock) →
      ReachableNN (bulk_upsert_products s rows)
  | replaceSalesStep {s today rows} :
      ReachableNN s → ReachableNN (replace_sales s today rows)

/-- Structural well-formedness every reachable store enjoys (enforced in the
database by the PRIMARY KEY and UNIQUE constraints): unique codes, unique ids,
and ids positive and below the autoincrement counter. -/
def StoreWF (s : Store) : Prop :=
  (s.products.map (fun p => p.product_code)).Nodup ∧
  (s.products.map (fun p => p.id)).Nodup ∧
  ∀ p ∈ s.products, 0 < p.id ∧ p.id < s.next_product_id

instance : DecidablePred StoreWF := fun s => by
  unfold StoreWF; infer_instance

/-- A sample calendar date used for concrete scenarios. -/
def sampleDate : Date :=
  ⟨2024, 1, 15⟩

/-! ## Helper lemmas -/

theorem sumQ_append (l₁ l₂ : List ℚ) : sumQ (l₁ ++ l₂) = sumQ l₁ + sumQ l₂ := by
  induction l₁ with
  | nil => simp [sumQ]
  | cons a l ih => simp [sumQ, List.foldr_cons] at ih ⊢; rw [ih]; ring

theorem sumQ_nil : sumQ [] = 0 := rfl

/-! ## C2: failure cases leave the store untouched -/

/-- C2: `restock` and `recordSale` on an unknown product code fail with
`NotFound`, and `recordSale` with `quantity` exceeding the current stock fails
with `InsufficientStock`; in every such case the caller's store is exactly the
store before the call — nothing is written. -/
theorem claim2_failures_leave_store_unchanged (s : Store) (today : Date)
    (code : String) (qty : Int) :
    (get_product s code = none →
      restock s today code qty = .error .notFound ∧
      restockState s today code qty = s ∧
      record_sale s today code qty = .error .notFound ∧
      recordSaleState s today code qty = s) ∧
    (∀ p, get_product s code = some p → p.stock < qty →
      record_sale s today code qty = .error .insufficientStock ∧
      recordSaleState s today code qty = s) := by
  constructor
  · intro h
    refine ⟨?_, ?_, ?_, ?_⟩ <;>
      simp [restock, record_sale, restockState, recordSaleState, h]
  · intro p hp hlt
    constructor <;>
      simp [record_sale, recordSaleState, hp, hlt]

/-- Witness for C2 at concrete inputs: the fresh store has no product `"P001"`,
and a store holding `"P001"` with stock 5 rejects a sale of 6. -/
def c2Store : Store :=
  add_product freshStore sampleDate "P001" "위젯" 100 150 5 2

theorem claim2_witness :
    restock freshStore sampleDate "P001" 1 = .error .notFound ∧
    restockState freshStore sampleDate "P001" 1 = freshStore ∧
    record_sale c2Store sampleDate "P001" 6 = .error .insufficientStock ∧
    recordSaleState c2Store sampleDate "P001" 6 = c2Store := by
  have h1 := (claim2_failures_leave_store_unchanged freshStore sampleDate "P001" 1).1
    (by rfl)
  have h2 := (claim2_failures_leave_store_unchanged c2Store sampleDate "P001" 6).2
    ⟨1, "P001", "위젯", 100, 150, 5, 2⟩ (by rfl) (by decide)
  exact ⟨h1.1, h1.2.1, h2.1, h2.2⟩

/-! ## C6: effects of a successful sale -/

/-- C6: for an existing product with `stock ≥ quantity > 0`, `recordSale`
succeeds, decrements that product's stock by `quantity`, appends one Sale at
the product's current price, one OUT movement at its current cost, one cash
movement of `+price×quantity`, and returns revenue `price×quantity` and cogs
`cost×quantity`. -/
theorem claim6_record_sale_success (s : Store) (today : Date) (code : String)
    (qty : Int) (p : Product) (hp : get_product s code = some p)
    (hqty : 0 < qty) (hstock : qty ≤ p.stock) :
    record_sale s today code qty = .ok
      ({ s with
          products := s.products.map (fun q =>
            if q.id = p.id then { q with stock := q.stock - qty } else q)
          sales := s.sales ++ [⟨s.next_sale_id, p.id, qty, p.price, today⟩]
          next_sale_id := s.next_sale_id + 1
          inventory_movements := s.inventory_movements ++
            [⟨s.next_movement_id, p.id, "OUT", qty, p.cost, today⟩]
          next_movement_id := s.next_movement_id + 1
          cash_movements := s.cash_movements ++
            [⟨s.next_cash_id, p.name ++ " 판매 수익", p.price * (qty : ℚ),
              if 0 ≤ p.price * (qty : ℚ) then "IN" else "OUT", today⟩]
          next_cash_id := s.next_cash_id + 1 },
        ⟨p, qty, p.price, p.price * (qty : ℚ), p.cost * (qty : ℚ)⟩) := by
  have hlt : ¬ p.stock < qty := not_lt.mpr hstock
  unfold record_sale
  rw [hp]
  simp only [if_neg hlt]
  rfl

/-- Witness for C6: selling 2 of 5 units of `"P001"` (cost 100, price 150). -/
theorem claim6_witness :
    record_sale c2Store sampleDate "P001" 2 = .ok
      ({ c2Store with
          products := c2Store.products.map (fun q =>
            if q.id = 1 then { q with stock := q.stock - 2 } else q)
          sales := c2Store.sales ++ [⟨1, 1, 2, 150, sampleDate⟩]
          next_sale_id := 2
          inventory_movements := c2Store.inventory_movements ++
            [⟨2, 1, "OUT", 2, 100, sampleDate⟩]
          next_movement_id := 3
          cash_movements := c2Store.cash_movements ++
            [⟨1, "위젯 판매 수익", 150 * ((2 : Int) : ℚ),
              if 0 ≤ 150 * ((2 : Int) : ℚ) then "IN" else "OUT", sampleDate⟩]
          next_cash_id := 2 },
        ⟨⟨1, "P001", "위젯", 100, 150, 5, 2⟩, 2, 150, 150 * ((2 : Int) : ℚ),
          100 * ((2 : Int) : ℚ)⟩) :=
  claim6_record_sale_success c2Store sampleDate "P001" 2
    ⟨1, "P001", "위젯", 100, 150, 5, 2⟩ (by rfl) (by decide) (by decide)

/-! ## C9: effects of a successful restock -/

/-- C9: for an existing product and `quantity > 0`, `restock` succeeds,
increments the product's stock by `quantity`, appends one IN movement at the
product's current cost and one cash movement of `−cost×quantity`, and the cash
balance decreases by `cost×quantity`. -/
theorem claim9_restock_success (s : Store) (today : Date) (code : String)
    (qty : Int) (p : Product) (hp : get_product s code = some p)
    (hqty : 0 < qty) :
    restock s today code qty = .ok
      { s with
        products := s.products.map (fun q =>
          if q.product_code = code then { q with stock := q.stock + qty } else q)
        inventory_movements := s.inventory_movements ++
          [⟨s.next_movement_id, p.id, "IN", qty, p.cost, today⟩]
        next_movement_id := s.next_movement_id + 1
        cash_movements := s.cash_movements ++
          [⟨s.next_cash_id, p.name ++ " 매입", -(p.cost * (qty : ℚ)),
            if 0 ≤ -(p.cost * (qty : ℚ)) then "IN" else "OUT", today⟩]
        next_cash_id := s.next_cash_id + 1 } ∧
    get_cash_balance (restockState s today code qty) =
      get_cash_balance s - p.cost * (qty : ℚ) := by
  have hok : restock s today code qty = .ok
      { s with
        products := s.products.map (fun q =>
          if q.product_code = code then { q with stock := q.stock + qty } else q)
        inventory_movements := s.inventory_movements ++
          [⟨s.next_movement_id, p.id, "IN", qty, p.cost, today⟩]
        next_movement_id := s.next_movement_id + 1
        cash_movements := s.cash_movements ++
          [⟨s.next_cash_id, p.name ++ " 매입", -(p.cost * (qty : ℚ)),
            if 0 ≤ -(p.cost * (qty : ℚ)) then "IN" else "OUT", today⟩]
        next_cash_id := s.next_cash_id + 1 } := by
    unfold restock
    rw [hp]
    rfl
  refine ⟨hok, ?_⟩
  unfold restockState
  rw [hok]
  simp only [get_cash_balance, List.map_append]
  rw [sumQ_append]
  simp [sumQ]
  ring

/-! ## C8: replace-sales semantics -/

theorem insertSaleRows_map (today : Date) (lookup : String → Option Nat)
    (rows : List SaleRow) (nid : Nat) :
    (insertSaleRows today lookup rows nid).map
        (fun sl => (sl.product_id, sl.quantity, sl.sale_price, sl.sale_date))
      = rows.filterMap (fun r => (lookup r.product_code).bind (fun pid =>
          if pid = 0 then none
          else some (pid, r.quantity, r.sale_price, r.sale_date.getD today))) := by
  induction rows generalizing nid with
  | nil => rfl
  | cons r rs ih =>
    unfold insertSaleRows
    cases h : lookup r.product_code with
    | none => simp [List.filterMap_cons, h, ih]
    | some pid =>
      by_cases h0 : pid = 0
      · simp [List.filterMap_cons, h, h0, ih]
      · simp [List.filterMap_cons, h, h0, ih]

/-- C8: `replaceSales` discards every existing Sale and ends up with exactly
the given rows whose product code resolves through the code → id map built
from the products table (rowids are never 0, so the falsy-id skip only drops
unresolved codes); a row with an unknown code is silently skipped, and the
operation never fails (it is a total function). -/
theorem claim8_replace_sales_exact (s : Store) (today : Date)
    (rows : List SaleRow) :
    (replace_sales s today rows).sales.map
        (fun sl => (sl.product_id, sl.quantity, sl.sale_price, sl.sale_date))
      = rows.filterMap (fun r => (productIdByCode s r.product_code).bind (fun pid =>
          if pid = 0 then none
          else some (pid, r.quantity, r.sale_price, r.sale_date.getD today))) := by
  simpa [replace_sales] using
    insertSaleRows_map today (productIdByCode s) rows s.next_sale_id

/-! ## C3: upsert is not idempotent -/

/-- The user-visible columns of a product row (everything except the internal
rowid). -/
def visibleFields (p : Product) : String × String × ℚ × ℚ × Int × Int :=
  (p.product_code, p.name, p.cost, p.price, p.stock, p.reorder_level)

theorem find?_code_filtered (l : List Product) (code : String) :
    (l.filter (fun p => p.product_code ≠ code)).find?
      (fun p => p.product_code = code) = none := by
  apply List.find?_eq_none.mpr
  intro x hx
  have hne := (List.mem_filter.mp hx).2
  simpa using hne

theorem find?_append_of_none {α : Type} (l₁ l₂ : List α) (p : α → Bool)
    (h : l₁.find? p = none) : (l₁ ++ l₂).find? p = l₂.find? p := by
  induction l₁ with
  | nil => rfl
  | cons a l ih =>
    rw [List.find?_cons] at h
    rw [List.cons_append, List.find?_cons]
    cases hpa : p a with
    | true => simp [hpa] at h
    | false =>
      simp only [hpa] at h ⊢
      exact ih h

theorem add_product_products (s : Store) (today : Date) (code nm : String)
    (cost price : ℚ) (stock reorder : Int) :
    (add_product s today code nm cost price stock reorder).products =
      s.products.filter (fun p => p.product_code ≠ code) ++
        [⟨s.next_product_id, code, nm, cost, price, stock, reorder⟩] := by
  unfold add_product logInventoryMovement
  split <;> rfl

theorem add_product_next_product_id (s : Store) (today : Date) (code nm : String)
    (cost price : ℚ) (stock reorder : Int) :
    (add_product s today code nm cost price stock reorder).next_product_id =
      s.next_product_id + 1 := by
  unfold add_product logInventoryMovement
  split <;> rfl

theorem add_product_sales (s : Store) (today : Date) (code nm : String)
    (cost price : ℚ) (stock reorder : Int) :
    (add_product s today code nm cost price stock reorder).sales = s.sales := by
  unfold add_product logInventoryMovement
  split <;> rfl

theorem add_product_cash (s : Store) (today : Date) (code nm : String)
    (cost price : ℚ) (stock reorder : Int) :
    (add_product s today code nm cost price stock reorder).cash_movements =
      s.cash_movements := by
  unfold add_product logInventoryMovement
  split <;> rfl

theorem add_product_tax (s : Store) (today : Date) (code nm : String)
    (cost price : ℚ) (stock reorder : Int) :
    (add_product s today code nm cost price stock reorder).tax_settings =
      s.tax_settings := by
  unfold add_product logInventoryMovement
  split <;> rfl

theorem add_product_movements_pos (s : Store) (today : Date) (code nm : String)
    (cost price : ℚ) (stock reorder : Int) (h : stock ≠ 0) :
    (add_product s today code nm cost price stock reorder).inventory_movements =
      s.inventory_movements ++
        [⟨s.next_movement_id, s.next_product_id, "IN", stock, cost, today⟩] := by
  unfold add_product logInventoryMovement
  rw [if_pos h]

theorem add_product_movements_zero (s : Store) (today : Date) (code nm : String)
    (cost price : ℚ) (reorder : Int) :
    (add_product s today code nm cost price 0 reorder).inventory_movements =
      s.inventory_movements := by
  unfold add_product logInventoryMovement
  rfl

/-- Looking up the code just upserted always yields the freshly inserted row. -/
theorem get_product_add_self (s : Store) (today : Date) (code nm : String)
    (cost price : ℚ) (stock reorder : Int) :
    get_product (add_product s today code nm cost price stock reorder) code =
      some ⟨s.next_product_id, code, nm, cost, price, stock, reorder⟩ := by
  unfold get_product
  rw [add_product_products,
    find?_append_of_none _ _ _ (find?_code_filtered s.products code)]
  simp [List.find?_cons]

def c3Twice : Store :=
  add_product c2Store sampleDate "P001" "위젯" 100 150 5 2

/-- C3 counterexample: upserting `("P001", "위젯", 100, 150, 5, 2)` twice does
not leave the store as after one call — the second call logs a second IN
inventory movement (and renumbers the product row), so the movement log
lengths differ. -/
theorem claim3_counterexample :
    c3Twice ≠ c2Store ∧ c3Twice.inventory_movements.length = 2 ∧
      c2Store.inventory_movements.length = 1 := by
  have h2 : c3Twice.inventory_movements.length = 2 := rfl
  have h1 : c2Store.inventory_movements.length = 1 := rfl
  refine ⟨fun h => ?_, h2, h1⟩
  rw [h, h1] at h2
  exact absurd h2 (by decide)

/-- C3 (amended): repeating `upsertProduct` with identical input reproduces the
product's visible columns, the sales table and the cash log of the single
call, but it assigns a fresh internal product id and, whenever `stock ≠ 0`,
appends one additional InventoryMovement(IN, stock, cost); only for
`stock = 0` is the movement log unchanged.  So the operation is not idempotent
on the full store. -/
theorem claim3_amended (s : Store) (today : Date) (code nm : String)
    (cost price : ℚ) (stock reorder : Int) :
    (get_product (add_product (add_product s today code nm cost price stock reorder)
          today code nm cost price stock reorder) code).map visibleFields =
      (get_product (add_product s today code nm cost price stock reorder) code).map
        visibleFields ∧
    (add_product (add_product s today code nm cost price stock reorder)
        today code nm cost price stock reorder).sales =
      (add_product s today code nm cost price stock reorder).sales ∧
    (add_product (add_product s today code nm cost price stock reorder)
        today code nm cost price stock reorder).cash_movements =
      (add_product s today code nm cost price stock reorder).cash_movements ∧
    (stock ≠ 0 →
      (add_product (add_product s today code nm cost price stock reorder)
          today code nm cost price stock reorder).inventory_movements =
        (add_product s today code nm cost price stock reorder).inventory_movements ++
          [⟨(add_product s today code nm cost price stock reorder).next_movement_id,
            (add_product s today code nm cost price stock reorder).next_product_id,
            "IN", stock, cost, today⟩]) ∧
    (stock = 0 →
      (add_product (add_product s today code nm cost price stock reorder)
          today code nm cost price stock reorder).inventory_movements =
        (add_product s today code nm cost price stock reorder).inventory_movements) ∧
    (get_product (add_product (add_product s today code nm cost price stock reorder)
          today code nm cost price stock reorder) code).map (fun p => p.id) ≠
      (get_product (add_product s today code nm cost price stock reorder) code).map
        (fun p => p.id) := by
  refine ⟨?_, add_product_sales _ _ _ _ _ _ _ _, add_product_cash _ _ _ _ _ _ _ _,
    ?_, ?_, ?_⟩
  · rw [get_product_add_self, get_product_add_self]
    simp [visibleFields]
  · intro h
    exact add_product_movements_pos _ _ _ _ _ _ _ _ h
  · intro h
    subst h
    exact add_product_movements_zero _ _ _ _ _ _ _
  · rw [get_product_add_self, get_product_add_self, add_product_next_product_id]
    simp

/-- Witness for C3 (amended) at the concrete double upsert of `"P001"`. -/
theorem claim3_witness :
    (get_product c3Twice "P001").map visibleFields =
      (get_product c2Store "P001").map visibleFields ∧
    c3Twice.inventory_movements =
      c2Store.inventory_movements ++ [⟨2, 2, "IN", 5, 100, sampleDate⟩] ∧
    (get_product c3Twice "P001").map (fun p => p.id) ≠
      (get_product c2Store "P001").map (fun p => p.id) := by
  have h := claim3_amended freshStore sampleDate "P001" "위젯" 100 150 5 2
  exact ⟨h.1, h.2.2.2.1 (by decide), h.2.2.2.2.2⟩

/-! ## C7: quantity is not validated -/

/-- C7 counterexample: `recordSale("P001", 0)` and `restock("P001", -3)` on a
store holding `"P001"` with stock 5 do not fail — they write a Sale record and
an inventory movement respectively, changing the store. -/
theorem claim7_counterexample :
    (record_sale c2Store sampleDate "P001" 0).isOk = true ∧
    (recordSaleState c2Store sampleDate "P001" 0).sales.length =
      c2Store.sales.length + 1 ∧
    (restock c2Store sampleDate "P001" (-3)).isOk = true ∧
    (restockState c2Store sampleDate "P001" (-3)).inventory_movements.length =
      c2Store.inventory_movements.length + 1 :=
  ⟨rfl, rfl, rfl, rfl⟩

/-- C7 (amended): the engine performs no quantity validation and has no
`InvalidInput` failure: for `quantity ≤ 0` on an existing product, `restock`
succeeds and writes an inventory movement and a cash movement, and
`recordSale` (whenever the stock check `stock < quantity` does not trip, which
for nonpositive quantity holds whenever stock is nonnegative) succeeds and
writes a Sale record; the `> 0` precondition exists only in the UI layer. -/
theorem claim7_amended (s : Store) (today : Date) (code : String) (qty : Int)
    (p : Product) (hp : get_product s code = some p) (hq : qty ≤ 0) :
    (restock s today code qty).isOk = true ∧
    (restockState s today code qty).inventory_movements.length =
      s.inventory_movements.length + 1 ∧
    (restockState s today code qty).cash_movements.length =
      s.cash_movements.length + 1 ∧
    (¬ p.stock < qty →
      (record_sale s today code qty).isOk = true ∧
      (recordSaleState s today code qty).sales.length = s.sales.length + 1) := by
  refine ⟨?_, ?_, ?_, fun hlt => ⟨?_, ?_⟩⟩ <;>
    simp [restock, restockState, record_sale, recordSaleState, hp, *,
      logInventoryMovement, logCash, Except.isOk, Except.toBool]

/-- Witness for C7 (amended): quantity −3 against `"P001"` with stock 5. -/
theorem claim7_witness :
    (restock c2Store sampleDate "P001" (-3)).isOk = true ∧
    (record_sale c2Store sampleDate "P001" (-3)).isOk = true := by
  have h := claim7_amended c2Store sampleDate "P001" (-3)
    ⟨1, "P001", "위젯", 100, 150, 5, 2⟩ (by rfl) (by decide)
  exact ⟨h.1, (h.2.2.2 (by decide)).1⟩

/-- Witness for C9: restocking 4 units of `"P001"` (cost 100). -/
theorem claim9_witness :
    restock c2Store sampleDate "P001" 4 = .ok
      { c2Store with
        products := c2Store.products.map (fun q =>
          if q.product_code = "P001" then { q with stock := q.stock + 4 } else q)
        inventory_movements := c2Store.inventory_movements ++
          [⟨2, 1, "IN", 4, 100, sampleDate⟩]
        next_movement_id := 3
        cash_movements := c2Store.cash_movements ++
          [⟨1, "위젯 매입", -(100 * ((4 : Int) : ℚ)),
            if 0 ≤ -(100 * ((4 : Int) : ℚ)) then "IN" else "OUT", sampleDate⟩]
        next_cash_id := 2 } ∧
    get_cash_balance (restockState c2Store sampleDate "P001" 4) =
      get_cash_balance c2Store - 100 * ((4 : Int) : ℚ) :=
  claim9_restock_success c2Store sampleDate "P001" 4
    ⟨1, "P001", "위젯", 100, 150, 5, 2⟩ (by rfl) (by decide)

/-! ## C4: monthly summary -/

/-- C4: `monthlySummary(year, month)` aggregates over the half-open window
from the first day of the month to the first day of the next month, December
wrapping to January of `year+1`; `grossProfit = revenue − cogs`,
`vat = revenue × vatRate`, `incomeTax = max(grossProfit, 0) × incomeTaxRate`
(zero — hence not negative — whenever grossProfit ≤ 0, and nonnegative for
any nonnegative rate), `netIncome = grossProfit − incomeTax`; every sum over
an empty match set is 0, never an error. -/
theorem claim4_monthly_summary (s : Store) (year month : Nat) :
    (monthWindow year month).1 = ⟨year, month, 1⟩ ∧
    (month = 12 → (monthWindow year month).2 = ⟨year + 1, 1, 1⟩) ∧
    (month ≠ 12 → (monthWindow year month).2 = ⟨year, month + 1, 1⟩) ∧
    (get_monthly_summary s year month).revenue =
      summaryRevenue s (monthWindow year month).1 (monthWindow year month).2 ∧
    (get_monthly_summary s year month).cogs =
      summaryCogs s (monthWindow year month).1 (monthWindow year month).2 ∧
    (get_monthly_summary s year month).gross_profit =
      (get_monthly_summary s year month).revenue -
        (get_monthly_summary s year month).cogs ∧
    (get_monthly_summary s year month).vat =
      (get_monthly_summary s year month).revenue * (get_tax_rates s).vat_rate ∧
    (get_monthly_summary s year month).income_tax =
      max (get_monthly_summary s year month).gross_profit 0 *
        (get_tax_rates s).income_tax_rate ∧
    (get_monthly_summary s year month).net_income =
      (get_monthly_summary s year month).gross_profit -
        (get_monthly_summary s year month).income_tax ∧
    ((get_monthly_summary s year month).gross_profit ≤ 0 →
      (get_monthly_summary s year month).income_tax = 0) ∧
    (0 ≤ (get_tax_rates s).income_tax_rate →
      0 ≤ (get_monthly_summary s year month).income_tax) ∧
    (windowSales s (monthWindow year month).1 (monthWindow year month).2 = [] →
      (get_monthly_summary s year month).revenue = 0 ∧
      (get_monthly_summary s year month).cogs = 0 ∧
      (get_monthly_summary s year month).gross_profit = 0 ∧
      (get_monthly_summary s year month).vat = 0 ∧
      (get_monthly_summary s year month).income_tax = 0 ∧
      (get_monthly_summary s year month).net_income = 0) ∧
    (s.inventory_movements.filter (fun m =>
        m.movement_type = "IN" ∧
          inWindow (monthWindow year month).1 (monthWindow year month).2
            m.movement_date = true) = [] →
      (get_monthly_summary s year month).purchases = 0) ∧
    (s.cash_movements.filter (fun m =>
        inWindow (monthWindow year month).1 (monthWindow year month).2
          m.movement_date) = [] →
      (get_monthly_summary s year month).cash_flow = 0) := by
  have hrev : (get_monthly_summary s year month).revenue =
      summaryRevenue s (monthWindow year month).1 (monthWindow year month).2 := rfl
  have hcogs : (get_monthly_summary s year month).cogs =
      summaryCogs s (monthWindow year month).1 (monthWindow year month).2 := rfl
  have hgp : (get_monthly_summary s year month).gross_profit =
      (get_monthly_summary s year month).revenue -
        (get_monthly_summary s year month).cogs := rfl
  have htax : (get_monthly_summary s year month).income_tax =
      max (get_monthly_summary s year month).gross_profit 0 *
        (get_tax_rates s).income_tax_rate := rfl
  refine ⟨rfl, ?_, ?_, hrev, hcogs, hgp, rfl, htax, rfl, ?_, ?_, ?_, ?_, ?_⟩
  · intro h
    subst h
    rfl
  · intro h
    simp [monthWindow, h]
  · intro h
    rw [htax, max_eq_right h, zero_mul]
  · intro h
    rw [htax]
    exact mul_nonneg (le_max_right _ _) h
  · intro h
    have h1 : (get_monthly_summary s year month).revenue = 0 := by
      rw [hrev]
      unfold summaryRevenue
      rw [h]
      rfl
    have h2 : (get_monthly_summary s year month).cogs = 0 := by
      rw [hcogs]
      unfold summaryCogs
      rw [h]
      rfl
    have h3 : (get_monthly_summary s year month).gross_profit = 0 := by
      rw [hgp, h1, h2, sub_zero]
    refine ⟨h1, h2, h3, ?_, ?_, ?_⟩
    · show (get_monthly_summary s year month).revenue *
        (get_tax_rates s).vat_rate = 0
      rw [h1, zero_mul]
    · rw [htax, h3]
      simp
    · show (get_monthly_summary s year month).gross_profit -
        (get_monthly_summary s year month).income_tax = 0
      rw [h3, htax, h3]
      simp
  · intro h
    show summaryPurchases s (monthWindow year month).1 (monthWindow year month).2 = 0
    unfold summaryPurchases
    rw [h]
    rfl
  · intro h
    show summaryCashFlow s (monthWindow year month).1 (monthWindow year month).2 = 0
    unfold summaryCashFlow
    rw [h]
    rfl

/-- Witness for C4: the fresh store in December 2024 — the wrap goes to
2025-01-01 and every figure is 0. -/
theorem claim4_witness :
    (monthWindow 2024 12).2 = ⟨2025, 1, 1⟩ ∧
    (get_monthly_summary freshStore 2024 12).revenue = 0 ∧
    (get_monthly_summary freshStore 2024 12).net_income = 0 ∧
    0 ≤ (get_monthly_summary freshStore 2024 12).income_tax := by
  obtain ⟨-, hdec, -, -, -, -, -, -, -, -, hnn, hempty, -, -⟩ :=
    claim4_monthly_summary freshStore 2024 12
  obtain ⟨he1, -, -, -, -, he6⟩ := hempty (by rfl)
  refine ⟨hdec rfl, he1, he6, ?_⟩
  exact hnn (by norm_num [get_tax_rates, freshStore])

/-! ## C1: the stock invariant -/

/-- Rowid discipline of the products table: distinct ids, all below the
autoincrement counter. -/
def IdInv (s : Store) : Prop :=
  (s.products.map (fun p => p.id)).Nodup ∧
  ∀ p ∈ s.products, p.id < s.next_product_id

/-- Every product's stock is nonnegative. -/
def StockNN (s : Store) : Prop :=
  ∀ p ∈ s.products, 0 ≤ p.stock

theorem idInv_add_product (s : Store) (today : Date) (code nm : String)
    (cost price : ℚ) (stock reorder : Int) (h : IdInv s) :
    IdInv (add_product s today code nm cost price stock reorder) := by
  constructor
  · rw [add_product_products, List.map_append, List.nodup_append]
    refine ⟨((List.filter_sublist _).map _).nodup h.1, List.nodup_singleton _, ?_⟩
    intro x hx
    simp only [List.mem_map] at hx
    obtain ⟨q, hq, rfl⟩ := hx
    have hqmem := (List.mem_filter.mp hq).1
    have := h.2 q hqmem
    simp only [List.map_cons, List.map_nil, List.mem_singleton]
    show ¬ q.id = s.next_product_id
    omega
  · intro p hp
    rw [add_product_products] at hp
    rw [add_product_next_product_id]
    rcases List.mem_append.mp hp with hmem | hmem
    · have := h.2 p (List.mem_filter.mp hmem).1
      omega
    · rw [List.mem_singleton] at hmem
      subst hmem
      exact Nat.lt_succ_self _

theorem idInv_map_preserving (s : Store) (f : Product → Product)
    (hf : ∀ q, (f q).id = q.id) (h : IdInv s) :
    IdInv { s with products := s.products.map f } := by
  constructor
  · show ((s.products.map f).map (fun p => p.id)).Nodup
    rw [List.map_map]
    have : ((fun p => p.id) ∘ f) = fun p : Product => p.id := funext (fun q => hf q)
    rw [this]
    exact h.1
  · intro p hp
    simp only [List.mem_map] at hp
    obtain ⟨q, hq, rfl⟩ := hp
    show (f q).id < s.next_product_id
    rw [hf q]
    exact h.2 q hq

theorem stockNN_map_preserving (s : Store) (f : Product → Product)
    (hf : ∀ q ∈ s.products, 0 ≤ q.stock → 0 ≤ (f q).stock) (h : StockNN s) :
    StockNN { s with products := s.products.map f } := by
  intro p hp
  simp only [List.mem_map] at hp
  obtain ⟨q, hq, rfl⟩ := hp
  exact hf q hq (h q hq)

theorem bulkUpsertOne_inv (s : Store) (r : ProductRow) (hr : 0 ≤ r.stock)
    (h : IdInv s ∧ StockNN s) :
    IdInv (bulkUpsertOne s r) ∧ StockNN (bulkUpsertOne s r) := by
  unfold bulkUpsertOne
  split
  · constructor
    · exact idInv_map_preserving s _ (fun q => by split <;> rfl) h.1
    · refine stockNN_map_preserving s _ (fun q _ hq => ?_) h.2
      split
      · exact hr
      · exact hq
  · constructor
    · constructor
      · show ((s.products ++ [_]).map (fun p : Product => p.id)).Nodup
        rw [List.map_append, List.nodup_append]
        refine ⟨h.1.1, List.nodup_singleton _, ?_⟩
        intro x hx
        simp only [List.mem_map] at hx
        obtain ⟨q, hq, rfl⟩ := hx
        have := h.1.2 q hq
        simp only [List.map_cons, List.map_nil, List.mem_singleton]
        show ¬ q.id = s.next_product_id
        omega
      · intro p hp
        show p.id < s.next_product_id + 1
        rcases List.mem_append.mp hp with hmem | hmem
        · have := h.1.2 p hmem
          omega
        · rw [List.mem_singleton] at hmem
          subst hmem
          exact Nat.lt_succ_self _
    · intro p hp
      rcases List.mem_append.mp hp with hmem | hmem
      · exact h.2 p hmem
      · rw [List.mem_singleton] at hmem
        subst hmem
        exact hr

theorem bulk_fold_inv (rows : List ProductRow) :
    ∀ s : Store, IdInv s ∧ StockNN s → (∀ r ∈ rows, 0 ≤ r.stock) →
    IdInv (rows.foldl bulkUpsertOne s) ∧ StockNN (rows.foldl bulkUpsertOne s) := by
  induction rows with
  | nil => exact fun s h _ => h
  | cons r rs ih =>
    intro s h hrows
    rw [List.foldl_cons]
    exact ih _ (bulkUpsertOne_inv s r (hrows r (List.mem_cons_self r rs)) h)
      (fun q hq => hrows q (List.mem_cons_of_mem r hq))

theorem reachableNN_inv (s : Store) (h : ReachableNN s) : IdInv s ∧ StockNN s := by
  induction h with
  | init =>
    exact ⟨⟨List.nodup_nil, by intro p hp; cases hp⟩, by intro p hp; cases hp⟩
  | @upsertProduct s today code nm cost price stock reorder _ hst ih =>
    refine ⟨idInv_add_product s today code nm cost price stock reorder ih.1, ?_⟩
    intro p hp
    rw [add_product_products] at hp
    rcases List.mem_append.mp hp with hmem | hmem
    · exact ih.2 p (List.mem_filter.mp hmem).1
    · rw [List.mem_singleton] at hmem
      subst hmem
      exact hst
  | @restockStep s today code qty s' _ hq hr ih =>
    unfold restock at hr
    cases hp : get_product s code with
    | none => rw [hp] at hr; cases hr
    | some p =>
      rw [hp] at hr
      simp only [Except.ok.injEq] at hr
      subst hr
      have hid : IdInv { s with products := s.products.map (fun q =>
          if q.product_code = code then { q with stock := q.stock + qty } else q) } :=
        idInv_map_preserving s _ (fun q => by split <;> rfl) ih.1
      have hst : StockNN { s with products := s.products.map (fun q =>
          if q.product_code = code then { q with stock := q.stock + qty } else q) } := by
        refine stockNN_map_preserving s _ (fun q _ hq0 => ?_) ih.2
        split
        · show 0 ≤ q.stock + qty
          omega
        · exact hq0
      exact ⟨⟨hid.1, hid.2⟩, hst⟩
  | @recordSaleStep s today code qty s' res _ hr ih =>
    unfold record_sale at hr
    cases hp : get_product s code with
    | none => rw [hp] at hr; cases hr
    | some p =>
      rw [hp] at hr
      dsimp only [] at hr
      by_cases hlt : p.stock < qty
      · rw [if_pos hlt] at hr
        cases hr
      · rw [if_neg hlt] at hr
        simp only [Except.ok.injEq, Prod.mk.injEq] at hr
        obtain ⟨hs', -⟩ := hr
        subst hs'
        have hpmem : p ∈ s.products := List.mem_of_find?_eq_some hp
        have hid : IdInv { s with products := s.products.map (fun q =>
            if q.id = p.id then { q with stock := q.stock - qty } else q) } :=
          idInv_map_preserving s _ (fun q => by split <;> rfl) ih.1
        have hst : StockNN { s with products := s.products.map (fun q =>
            if q.id = p.id then { q with stock := q.stock - qty } else q) } := by
          refine stockNN_map_preserving s _ (fun q hqmem hq0 => ?_) ih.2
          split
          · rename_i hqid
            have hqp : q = p := List.inj_on_of_nodup_map ih.1.1 hqmem hpmem hqid
            subst hqp
            show 0 ≤ q.stock - qty
            omega
          · exact hq0
        exact ⟨⟨hid.1, hid.2⟩, hst⟩
  | @updateTaxRatesStep s vat income _ ih => exact ih
  | @bulkUpsertStep s rows _ hrows ih =>
    unfold bulk_upsert_products
    split
    · exact ih
    · exact bulk_fold_inv rows s ih hrows
  | @replaceSalesStep s today rows _ ih => exact ⟨⟨ih.1.1, ih.1.2⟩, ih.2⟩

def c1Bad : Store :=
  add_product freshStore sampleDate "P002" "음수" 1 1 (-5) 0

/-- C1 counterexample: the claimed invariant fails — `upsertProduct` accepts a
negative stock argument, so a store with a product of stock −5 is reachable
from the fresh store by one public mutation. -/
theorem claim1_counterexample :
    Reachable c1Bad ∧ c1Bad.products.any (fun p => p.stock < 0) = true :=
  ⟨Reachable.upsertProduct Reachable.init, rfl⟩

/-- C1 (amended): the invariant holds for every state reachable by mutation
sequences whose stock arguments to `upsertProduct` / `bulkUpsertProducts` are
nonnegative and whose `restock` quantities are nonnegative (the engine itself
does not enforce this; a negative upsert stock or restock quantity breaks the
invariant): in every such state every product's stock is ≥ 0. -/
theorem claim1_stock_nonneg (s : Store) (h : ReachableNN s) :
    ∀ p ∈ s.products, 0 ≤ p.stock :=
  (reachableNN_inv s h).2

/-- Witness for C1 (amended): the store holding `"P001"` with stock 5 is
NN-reachable and satisfies the invariant. -/
theorem claim1_witness :
    ReachableNN c2Store ∧ ∀ p ∈ c2Store.products, 0 ≤ p.stock := by
  have hr : ReachableNN c2Store :=
    ReachableNN.upsertProduct ReachableNN.init (by decide)
  exact ⟨hr, claim1_stock_nonneg c2Store hr⟩

/-! ## C10: re-upserting an existing code orphans its history -/

/-- A store with the sales referencing a given product id removed — the
comparison point for what the joins can still see. -/
def dropSalesOf (t : Store) (pid : Nat) : Store :=
  { t with sales := t.sales.filter (fun sl => sl.product_id ≠ pid) }

theorem filterMap_join_filter_ne (f : Nat → Option Product) (pid : Nat)
    (h : f pid = none) (l : List Sale) :
    (l.filter (fun sl => sl.product_id ≠ pid)).filterMap
        (fun sl => (f sl.product_id).map (fun p => (sl, p)))
      = l.filterMap (fun sl => (f sl.product_id).map (fun p => (sl, p))) := by
  induction l with
  | nil => rfl
  | cons a l ih =>
    by_cases hpid : a.product_id = pid
    · rw [List.filter_cons_of_neg (by simp [hpid])]
      simp only [List.filterMap_cons, hpid, h, Option.map_none']
      exact ih
    · rw [List.filter_cons_of_pos (by simp [hpid])]
      cases hfa : f a.product_id with
      | none =>
        simp only [List.filterMap_cons, hfa, Option.map_none']
        exact ih
      | some q =>
        simp only [List.filterMap_cons, hfa, Option.map_some']
        rw [ih]

theorem salesJoined_dropSalesOf (t : Store) (pid : Nat)
    (h : productById t pid = none) :
    salesJoined (dropSalesOf t pid) = salesJoined t := by
  show (t.sales.filter (fun sl => sl.product_id ≠ pid)).filterMap
      (fun sl => (productById t sl.product_id).map (fun p => (sl, p)))
    = t.sales.filterMap
      (fun sl => (productById t sl.product_id).map (fun p => (sl, p)))
  exact filterMap_join_filter_ne (fun n => productById t n) pid h t.sales

theorem productById_add_product_old (s : Store) (today : Date) (code nm : String)
    (cost price : ℚ) (stock reorder : Int) (p : Product)
    (hids : (s.products.map (fun q => q.id)).Nodup)
    (hbound : ∀ q ∈ s.products, q.id < s.next_product_id)
    (hp : get_product s code = some p) :
    productById (add_product s today code nm cost price stock reorder) p.id =
      none := by
  have hpmem : p ∈ s.products := List.mem_of_find?_eq_some hp
  have hpcode : p.product_code = code := by simpa using List.find?_some hp
  have hne : s.next_product_id ≠ p.id := by
    have := hbound p hpmem
    omega
  unfold productById
  rw [add_product_products]
  rw [find?_append_of_none]
  · simp [List.find?_cons, hne]
  · apply List.find?_eq_none.mpr
    intro q hq
    have hqmem := (List.mem_filter.mp hq).1
    have hqcode : ¬ q.product_code = code := by
      simpa using (List.mem_filter.mp hq).2
    simp only [decide_eq_true_eq]
    intro hqid
    have hqp : q = p := List.inj_on_of_nodup_map hids hqmem hpmem (by simpa using hqid)
    exact hqcode (hqp ▸ hpcode)

/-- C10: upserting an existing code replaces the row under a fresh internal
id: the code's visible columns are fully overwritten, the old id no longer
resolves, the old sale rows remain in the table but drop out of every join —
the sales listing and the monthly revenue/cogs sums equal the ones computed
with those sales deleted. -/
theorem claim10_upsert_orphans_history (s : Store) (today : Date)
    (code nm : String) (cost price : ℚ) (stock reorder : Int) (p : Product)
    (hwf : StoreWF s) (hp : get_product s code = some p) :
    get_product (add_product s today code nm cost price stock reorder) code =
      some ⟨s.next_product_id, code, nm, cost, price, stock, reorder⟩ ∧
    s.next_product_id ≠ p.id ∧
    (add_product s today code nm cost price stock reorder).sales = s.sales ∧
    productById (add_product s today code nm cost price stock reorder) p.id =
      none ∧
    fetch_all_sales (add_product s today code nm cost price stock reorder) =
      fetch_all_sales
        (dropSalesOf (add_product s today code nm cost price stock reorder) p.id) ∧
    ∀ year month : Nat,
      (get_monthly_summary (add_product s today code nm cost price stock reorder)
          year month).revenue =
        (get_monthly_summary
          (dropSalesOf (add_product s today code nm cost price stock reorder) p.id)
          year month).revenue ∧
      (get_monthly_summary (add_product s today code nm cost price stock reorder)
          year month).cogs =
        (get_monthly_summary
          (dropSalesOf (add_product s today code nm cost price stock reorder) p.id)
          year month).cogs := by
  have hpmem : p ∈ s.products := List.mem_of_find?_eq_some hp
  have hnone : productById (add_product s today code nm cost price stock reorder)
      p.id = none :=
    productById_add_product_old s today code nm cost price stock reorder p
      hwf.2.1 (fun q hq => (hwf.2.2 q hq).2) hp
  have hsj : salesJoined
      (dropSalesOf (add_product s today code nm cost price stock reorder) p.id) =
      salesJoined (add_product s today code nm cost price stock reorder) :=
    salesJoined_dropSalesOf _ _ hnone
  refine ⟨get_product_add_self s today code nm cost price stock reorder, ?_,
    add_product_sales s today code nm cost price stock reorder, hnone, ?_, ?_⟩
  · have := (hwf.2.2 p hpmem).2
    omega
  · unfold fetch_all_sales
    rw [hsj]
  · intro year month
    constructor
    · show summaryRevenue _ _ _ = summaryRevenue _ _ _
      unfold summaryRevenue windowSales
      rw [hsj]
    · show summaryCogs _ _ _ = summaryCogs _ _ _
      unfold summaryCogs windowSales
      rw [hsj]

/-- The scenario store: `"P001"` upserted with stock 5, then 2 units sold. -/
def soldStore : Store :=
  recordSaleState c2Store sampleDate "P001" 2

/-- Witness for C10: re-upserting `"P001"` over `soldStore` (which holds one
sale of product id 1) renumbers the product to id 2 and the recorded sale no
longer joins anywhere. -/
theorem claim10_witness :
    get_product (add_product soldStore sampleDate "P001" "위젯" 100 150 9 2)
        "P001" = some ⟨2, "P001", "위젯", 100, 150, 9, 2⟩ ∧
    productById (add_product soldStore sampleDate "P001" "위젯" 100 150 9 2) 1 =
      none ∧
    fetch_all_sales (add_product soldStore sampleDate "P001" "위젯" 100 150 9 2) =
      fetch_all_sales
        (dropSalesOf (add_product soldStore sampleDate "P001" "위젯" 100 150 9 2)
          1) := by
  have h := claim10_upsert_orphans_history soldStore sampleDate "P001" "위젯"
    100 150 9 2 ⟨1, "P001", "위젯", 100, 150, 3, 2⟩ (by decide) (by rfl)
  exact ⟨h.1, h.2.2.2.1, h.2.2.2.2.1⟩

/-! ## C5: export / import round-trip -/

theorem bulkUpsertOne_fixpoint (s : Store) (p : Product)
    (hcodes : (s.products.map (fun q => q.product_code)).Nodup)
    (hpmem : p ∈ s.products) :
    bulkUpsertOne s (toProductRow p) = s := by
  unfold bulkUpsertOne
  rw [if_pos (List.any_eq_true.mpr ⟨p, hpmem, by simp [toProductRow]⟩)]
  have hmap : s.products.map (fun q =>
      if q.product_code = (toProductRow p).product_code then
        { q with name := (toProductRow p).name, cost := (toProductRow p).cost,
                 price := (toProductRow p).price, stock := (toProductRow p).stock,
                 reorder_level := (toProductRow p).reorder_level }
      else q) = s.products := by
    have hpt : ∀ q ∈ s.products, (fun q =>
        if q.product_code = (toProductRow p).product_code then
          { q with name := (toProductRow p).name, cost := (toProductRow p).cost,
                   price := (toProductRow p).price, stock := (toProductRow p).stock,
                   reorder_level := (toProductRow p).reorder_level }
        else q) q = id q := by
      intro q hq
      by_cases hqc : q.product_code = p.product_code
      · have hqp : q = p := List.inj_on_of_nodup_map hcodes hq hpmem hqc
        subst hqp
        simp [toProductRow]
      · simp [toProductRow, hqc]
    rw [List.map_congr_left hpt, List.map_id]
  rw [hmap]

theorem bulk_upsert_fixpoint (s : Store) (rows : List ProductRow)
    (hcodes : (s.products.map (fun q => q.product_code)).Nodup)
    (h : ∀ r ∈ rows, ∃ p ∈ s.products, toProductRow p = r) :
    bulk_upsert_products s rows = s := by
  unfold bulk_upsert_products
  split
  · rfl
  · clear * - hcodes h
    induction rows with
    | nil => rfl
    | cons r rs ih =>
      obtain ⟨p, hpmem, hpr⟩ := h r (List.mem_cons_self r rs)
      rw [List.foldl_cons]
      rw [show bulkUpsertOne s r = s from hpr ▸ bulkUpsertOne_fixpoint s p hcodes hpmem]
      exact ih (fun q hq => h q (List.mem_cons_of_mem r hq))

theorem filter_code_singleton (l : List Product) (p : Product) (c : String)
    (hcodes : (l.map (fun q => q.product_code)).Nodup) (hmem : p ∈ l)
    (hc : p.product_code = c) :
    l.filter (fun q => q.product_code = c) = [p] := by
  induction l with
  | nil => cases hmem
  | cons a t ih =>
    rw [List.map_cons, List.nodup_cons] at hcodes
    by_cases hac : a.product_code = c
    · have hpa : p = a := by
        rcases List.mem_cons.mp hmem with h | h
        · exact h
        · exfalso
          apply hcodes.1
          have hin : p.product_code ∈ t.map (fun q => q.product_code) :=
            List.mem_map_of_mem (fun q => q.product_code) h
          rw [hac, ← hc]
          exact hin
      subst hpa
      rw [List.filter_cons_of_pos (by simp [hac])]
      rw [List.filter_eq_nil_iff.mpr]
      intro q hq
      simp only [decide_eq_true_eq]
      intro hqc
      apply hcodes.1
      have hin : q.product_code ∈ t.map (fun w => w.product_code) :=
        List.mem_map_of_mem (fun w => w.product_code) hq
      rw [hac, ← hqc]
      exact hin
    · have hpt : p ∈ t := by
        rcases List.mem_cons.mp hmem with h | h
        · exact absurd (h ▸ hc) hac
        · exact h
      rw [List.filter_cons_of_neg (by simp [hac])]
      exact ih hcodes.2 hpt

theorem productIdByCode_resolves (s : Store) (p : Product)
    (hcodes : (s.products.map (fun q => q.product_code)).Nodup)
    (hmem : p ∈ s.products) :
    productIdByCode s p.product_code = some p.id := by
  unfold productIdByCode
  have hperm := List.perm_insertionSort
    (fun a b : Product => a.name ≤ b.name) s.products
  rw [show fetch_products s =
    s.products.insertionSort (fun a b : Product => a.name ≤ b.name) from rfl]
  rw [filter_code_singleton _ p _
    ((hperm.map (fun q => q.product_code)).nodup_iff.mpr hcodes)
    (hperm.mem_iff.mpr hmem) rfl]
  rfl

theorem find?_id_unique (l : List Product) (p : Product)
    (hids : (l.map (fun q => q.id)).Nodup) (hmem : p ∈ l) :
    l.find? (fun q => q.id = p.id) = some p := by
  induction l with
  | nil => cases hmem
  | cons a t ih =>
    rw [List.map_cons, List.nodup_cons] at hids
    rw [List.find?_cons]
    by_cases hap : a.id = p.id
    · have hpa : p = a := by
        rcases List.mem_cons.mp hmem with h | h
        · exact h
        · exact absurd (hap ▸ List.mem_map_of_mem (fun q => q.id) h) hids.1
      simp [hap, hpa]
    · have hpt : p ∈ t := by
        rcases List.mem_cons.mp hmem with h | h
        · exact absurd (h ▸ rfl) hap
        · exact h
      rw [decide_eq_false hap]
      exact ih hids.2 hpt

theorem productById_resolves (s : Store) (p : Product)
    (hids : (s.products.map (fun q => q.id)).Nodup) (hmem : p ∈ s.products) :
    productById s p.id = some p :=
  find?_id_unique s.products p hids hmem

theorem fetch_all_sales_mem (s : Store) (r : SaleViewRow)
    (hr : r ∈ fetch_all_sales s) :
    ∃ sl ∈ s.sales, ∃ q, productById s sl.product_id = some q ∧ q ∈ s.products ∧
      r = ⟨sl.id, q.product_code, q.name, sl.quantity, sl.sale_price,
        sl.sale_date⟩ := by
  unfold fetch_all_sales at hr
  have hr2 := (List.perm_insertionSort _ _).mem_iff.mp hr
  obtain ⟨x, hmem, hview⟩ := List.mem_map.mp hr2
  unfold salesJoined at hmem
  obtain ⟨sl', hsl', hopt⟩ := List.mem_filterMap.mp hmem
  cases hq : productById s sl'.product_id with
  | none => rw [hq] at hopt; cases hopt
  | some q' =>
    rw [hq] at hopt
    simp only [Option.map_some', Option.some.injEq] at hopt
    subst hopt
    exact ⟨sl', hsl', q', hq, List.mem_of_find?_eq_some hq, hview.symm⟩

theorem insertSaleRows_view (today : Date) (lookup : String → Option Nat)
    (view : Nat → Option Product) (rows : List SaleRow) (nid : Nat)
    (h : ∀ r ∈ rows, ∃ pid, lookup r.product_code = some pid ∧ pid ≠ 0 ∧
      (view pid).map (fun p => p.product_code) = some r.product_code) :
    (insertSaleRows today lookup rows nid).map
        (fun sl => ((view sl.product_id).map (fun p => p.product_code),
          sl.quantity, sl.sale_price, sl.sale_date))
      = rows.map (fun r => (some r.product_code, r.quantity, r.sale_price,
          r.sale_date.getD today)) := by
  induction rows generalizing nid with
  | nil => rfl
  | cons r rs ih =>
    obtain ⟨pid, hl, h0, hv⟩ := h r (List.mem_cons_self r rs)
    unfold insertSaleRows
    simp only [hl]
    rw [if_neg h0]
    rw [List.map_cons, List.map_cons]
    rw [ih _ (fun q hq => h q (List.mem_cons_of_mem r hq))]
    show ((view pid).map (fun p => p.product_code), r.quantity, r.sale_price,
      r.sale_date.getD today) :: _ = _
    rw [hv]

/-- C5 (amended): exporting and immediately importing the just-exported
document reproduces, for the tabular (multi-sheet) format, an identical
`products` table and `tax_settings` record, and a ledger `sales` set whose
records — viewed as (product code, quantity, sale price, sale date) — are
exactly the exported rows (sales get fresh internal ids).  The same holds for
the delimited format whenever the exported sales set is non-empty or the raw
sales table is empty; a record set with no rows is simply absent from the
delimited document, so its (sales-clearing) import step is skipped. -/
theorem claim5_roundtrip (s : Store) (today : Date) (hwf : StoreWF s) :
    (importTabularRoundtrip s today).products = s.products ∧
    (importTabularRoundtrip s today).tax_settings = s.tax_settings ∧
    (importTabularRoundtrip s today).sales.map
        (fun sl => ((productById s sl.product_id).map (fun p => p.product_code),
          sl.quantity, sl.sale_price, sl.sale_date))
      = (fetch_all_sales s).map
          (fun r => (some r.product_code, r.quantity, r.sale_price,
            r.sale_date)) ∧
    (fetch_all_sales s ≠ [] ∨ s.sales = [] →
      importDelimitedRoundtrip s today = importTabularRoundtrip s today) := by
  obtain ⟨hcodes, hids, hidb⟩ := hwf
  have hprov : ∀ r ∈ (fetch_products s).map toProductRow,
      ∃ p ∈ s.products, toProductRow p = r := by
    intro r hr
    obtain ⟨p, hp, rfl⟩ := List.mem_map.mp hr
    exact ⟨p, (List.perm_insertionSort _ _).mem_iff.mp hp, rfl⟩
  have hbulk : bulk_upsert_products s ((fetch_products s).map toProductRow) = s :=
    bulk_upsert_fixpoint s _ hcodes hprov
  have h1 : importTabularRoundtrip s today =
      apply_tax_frame
        (replace_sales s today ((fetch_all_sales s).map toSaleRow))
        s.tax_settings := by
    show apply_tax_frame
        (replace_sales
          (bulk_upsert_products s ((fetch_products s).map toProductRow)) today
          ((fetch_all_sales s).map toSaleRow))
        s.tax_settings = _
    rw [hbulk]
  have hresolve : ∀ r ∈ (fetch_all_sales s).map toSaleRow,
      ∃ pid, productIdByCode s r.product_code = some pid ∧ pid ≠ 0 ∧
        (productById s pid).map (fun p => p.product_code) =
          some r.product_code := by
    intro r hr
    obtain ⟨rv, hrv, rfl⟩ := List.mem_map.mp hr
    obtain ⟨sl, -, q, -, hqmem, rfl⟩ := fetch_all_sales_mem s rv hrv
    refine ⟨q.id, ?_, ?_, ?_⟩
    · exact productIdByCode_resolves s q hcodes hqmem
    · have := (hidb q hqmem).1
      omega
    · rw [productById_resolves s q hids hqmem]
      rfl
  refine ⟨?_, ?_, ?_, ?_⟩
  · rw [h1]
    rfl
  · rw [h1]
    rfl
  · rw [h1]
    show (insertSaleRows today (productIdByCode s)
        ((fetch_all_sales s).map toSaleRow) s.next_sale_id).map _ = _
    rw [insertSaleRows_view today (productIdByCode s) (productById s) _ _
      hresolve]
    rw [List.map_map]
    rfl
  · rintro (hne | hsales)
    · obtain ⟨rv, hrv⟩ := List.exists_mem_of_ne_nil _ hne
      obtain ⟨-, -, q, -, hqmem, -⟩ := fetch_all_sales_mem s rv hrv
      have hpne : (fetch_products s).map toProductRow ≠ [] := by
        intro hnil
        have hfp : fetch_products s = [] := List.map_eq_nil.mp hnil
        have hperm := List.perm_insertionSort
          (fun a b : Product => a.name ≤ b.name) s.products
        rw [show s.products.insertionSort (fun a b : Product => a.name ≤ b.name)
          = fetch_products s from rfl, hfp] at hperm
        rw [hperm.symm.eq_nil] at hqmem
        cases hqmem
      have hsne : (fetch_all_sales s).map toSaleRow ≠ [] := by
        intro hnil
        exact hne (List.map_eq_nil.mp hnil)
      unfold importDelimitedRoundtrip importTabularRoundtrip
      rw [show optFrame ((fetch_products s).map toProductRow) =
          some ((fetch_products s).map toProductRow) from by
        unfold optFrame
        rw [if_neg (by simpa [List.isEmpty_iff] using hpne)]]
      rw [show optFrame ((fetch_all_sales s).map toSaleRow) =
          some ((fetch_all_sales s).map toSaleRow) from by
        unfold optFrame
        rw [if_neg (by simpa [List.isEmpty_iff] using hsne)]]
    · have hexp : fetch_all_sales s = [] := by
        unfold fetch_all_sales salesJoined
        rw [hsales]
        rfl
      have hreplace : replace_sales s today [] = s := by
        have h0 : replace_sales s today [] = { s with sales := ([] : List Sale) } :=
          rfl
        rw [h0, ← hsales]
      by_cases hpe : (fetch_products s).map toProductRow = []
      · unfold importDelimitedRoundtrip importTabularRoundtrip
        rw [hexp, hpe]
        show apply_tax_frame s s.tax_settings =
          apply_tax_frame (replace_sales s today []) s.tax_settings
        rw [hreplace]
      · unfold importDelimitedRoundtrip importTabularRoundtrip
        rw [hexp]
        rw [show optFrame ((fetch_products s).map toProductRow) =
            some ((fetch_products s).map toProductRow) from by
          unfold optFrame
          rw [if_neg (by simpa [List.isEmpty_iff] using hpe)]]
        show apply_tax_frame
            (bulk_upsert_products s ((fetch_products s).map toProductRow))
            s.tax_settings =
          apply_tax_frame
            (replace_sales
              (bulk_upsert_products s ((fetch_products s).map toProductRow))
              today []) s.tax_settings
        rw [hbulk, hreplace]

/-- The result dict of the witnessed sale (2 units of `"P001"`). -/
def soldResult : SaleResult :=
  ⟨⟨1, "P001", "위젯", 100, 150, 5, 2⟩, 2, 150, 150 * ((2 : Int) : ℚ),
    100 * ((2 : Int) : ℚ)⟩

/-- The dangling-sales store: after re-upserting `"P001"` over `soldStore`,
the recorded sale references the deleted product id 1. -/
def c5Dangling : Store :=
  add_product soldStore sampleDate "P001" "위젯" 100 150 5 2

/-- C5 counterexample: from the reachable store `c5Dangling`, whose only sale
is dangling, the exported sales set is empty — so the delimited document
contains no sales rows, the import skips the sales-replacement step, and the
store after the round-trip still holds one Sale record: its sales set is not
equal to the exported (empty) one. -/
theorem claim5_counterexample :
    Reachable c5Dangling ∧
    fetch_all_sales c5Dangling = [] ∧
    (importDelimitedRoundtrip c5Dangling sampleDate).sales.length = 1 := by
  refine ⟨?_, rfl, rfl⟩
  have h1 : Reachable c2Store := Reachable.upsertProduct Reachable.init
  have h2 : record_sale c2Store sampleDate "P001" 2 = .ok (soldStore, soldResult) :=
    rfl
  exact Reachable.upsertProduct (Reachable.recordSaleStep h1 h2)

/-- Witness for C5 (amended) at the fresh store (no sales, so the delimited
round-trip agrees with the tabular one). -/
theorem claim5_witness :
    (importTabularRoundtrip freshStore sampleDate).products =
      freshStore.products ∧
    (importTabularRoundtrip freshStore sampleDate).tax_settings =
      freshStore.tax_settings ∧
    importDelimitedRoundtrip freshStore sampleDate =
      importTabularRoundtrip freshStore sampleDate := by
  obtain ⟨h1, h2, -, h4⟩ := claim5_roundtrip freshStore sampleDate (by decide)
  exact ⟨h1, h2, h4 (Or.inr rfl)⟩

end MOW
